import Mathlib

/-!
Shallow embedding of the Solana casino program
(src/contracts/solana/src/lib.rs) and verification of its specification.

Pubkeys, 32-byte game ids and result hashes are modelled as `Nat`
(opaque identifiers); u64 / u16 machine integers are modelled as `Nat`
with explicit `2 ^ 64` bounds exactly where the source performs checked
arithmetic.  Host-runtime effects (account creation, rent,
serialization) are outside the handler logic embedded here; on an error
the runtime applies no writes, so an `Except.error` result carries no
state, faithfully to the atomicity the host guarantees.
-/

deriving instance DecidableEq for Except

/-- Error codes of the `CasinoError` enum in lib.rs. -/
inductive CasinoError where
  | invalidInstruction
  | notRentExempt
  | expectedAmountMismatch
  | insufficientFunds
  | gameAlreadyExists
  | gameNotFound
  | gameAlreadySettled
  | unauthorized
  | invalidBetAmount
  | invalidHouseEdge
  deriving DecidableEq, Repr

/-- The slice of `solana_program::ProgramError` values the handlers
produce: custom casino errors, `InvalidArgument` (used by the source for
address and player mismatches) and `ArithmeticOverflow`. -/
inductive ProgError where
  | custom (e : CasinoError)
  | invalidArgument
  | arithmeticOverflow
  deriving DecidableEq, Repr

/-- `CasinoState` of lib.rs. -/
structure CasinoState where
  authority : Nat
  house_edge : Nat
  min_bet : Nat
  max_bet : Nat
  operators : List Nat
  deriving DecidableEq, Repr

/-- `GameState` of lib.rs. -/
structure GameState where
  player : Nat
  bet_amount : Nat
  is_settled : Bool
  is_win : Bool
  win_amount : Nat
  result_hash : Nat
  deriving DecidableEq, Repr

/-- Seeds used with `Pubkey::find_program_address` in lib.rs: the
casino state is derived from `[b"casino", authority]`, the game account
from `[game_id]`. -/
inductive Seed where
  | casino (authority : Nat)
  | game (game_id : Nat)
  deriving DecidableEq, Repr

/-- Host address derivation (`Pubkey::find_program_address`): a
deterministic, collision-free map from seeds to addresses, modelled by
an explicit injective encoding. -/
def derive : Seed → Nat
  | Seed.casino a => 2 * a + 1
  | Seed.game g => 2 * g + 2

/-- u64 `checked_mul`. -/
def checked_mul (a b : Nat) : Option Nat :=
  if a * b < 2 ^ 64 then some (a * b) else none

/-- u64 `checked_sub`. -/
def checked_sub (a b : Nat) : Option Nat :=
  if b ≤ a then some (a - b) else none

/-- u64 `checked_div`. -/
def checked_div (a b : Nat) : Option Nat :=
  if b = 0 then none else some (a / b)

/-- The payout-bound computation inlined in `process_settle_game`
(lib.rs lines 434-440):
`bet.checked_mul(10000)?.checked_div((10000 as u64).checked_sub(edge).unwrap_or(1))?`,
with `ok_or(ProgramError::ArithmeticOverflow)` on each `None`. -/
def max_possible_win (bet_amount house_edge : Nat) : Except ProgError Nat :=
  match checked_mul bet_amount 10000 with
  | none => Except.error ProgError.arithmeticOverflow
  | some p =>
    match checked_div p ((checked_sub 10000 house_edge).getD 1) with
    | none => Except.error ProgError.arithmeticOverflow
    | some q => Except.ok q

/-- Accounts handed to the Initialize handler: the signing authority
and the caller-supplied casino state address. -/
structure InitializeAccounts where
  authority_key : Nat
  authority_is_signer : Bool
  casino_state_key : Nat
  deriving DecidableEq, Repr

/-- The Initialize handler of lib.rs (its source name ends in the word
Initialize and is shortened here): signer check, house-edge cap,
bet-bounds check, PDA re-derivation check, then creation of the state
with `operators = vec![authority]`. -/
def process_init (acc : InitializeAccounts)
    (house_edge min_bet max_bet : Nat) : Except ProgError CasinoState :=
  if !acc.authority_is_signer then
    Except.error (ProgError.custom CasinoError.unauthorized)
  else if house_edge > 1000 then
    Except.error (ProgError.custom CasinoError.invalidHouseEdge)
  else if min_bet > max_bet then
    Except.error (ProgError.custom CasinoError.invalidBetAmount)
  else if derive (Seed.casino acc.authority_key) ≠ acc.casino_state_key then
    Except.error ProgError.invalidArgument
  else
    Except.ok { authority := acc.authority_key, house_edge := house_edge,
                min_bet := min_bet, max_bet := max_bet,
                operators := [acc.authority_key] }

/-- Accounts handed to `process_place_bet`.  The casino state address is
supplied by the caller but never validated by the source handler; the
game account address is validated against the derivation from the game
id. -/
structure PlaceBetAccounts where
  player_key : Nat
  player_is_signer : Bool
  player_lamports : Nat
  casino_state_key : Nat
  game_account_key : Nat
  game_account_lamports : Nat
  deriving DecidableEq, Repr

/-- Result of a successful `process_place_bet`: the created game state
and the balances after the escrow transfer. -/
structure PlaceBetResult where
  game_state : GameState
  player_lamports : Nat
  game_account_lamports : Nat
  deriving DecidableEq, Repr

/-- `process_place_bet` of lib.rs: signer check, bet-range check, funds
check, PDA re-derivation check for the game account, creation of the
game record in the open state and escrow of `bet_amount` from the
player to the game account. -/
def process_place_bet (acc : PlaceBetAccounts) (casino_state : CasinoState)
    (game_id bet_amount : Nat) : Except ProgError PlaceBetResult :=
  if !acc.player_is_signer then
    Except.error (ProgError.custom CasinoError.unauthorized)
  else if bet_amount < casino_state.min_bet || bet_amount > casino_state.max_bet then
    Except.error (ProgError.custom CasinoError.invalidBetAmount)
  else if acc.player_lamports < bet_amount then
    Except.error (ProgError.custom CasinoError.insufficientFunds)
  else if derive (Seed.game game_id) ≠ acc.game_account_key then
    Except.error ProgError.invalidArgument
  else
    Except.ok
      { game_state :=
          { player := acc.player_key,
            bet_amount := bet_amount,
            is_settled := false,
            is_win := false,
            win_amount := 0,
            result_hash := 0 },
        player_lamports := acc.player_lamports - bet_amount,
        game_account_lamports := acc.game_account_lamports + bet_amount }

/-- Accounts handed to `process_settle_game`.  Both the casino state
address and the game address are caller-supplied; the source handler
never compares either one with a derived address. -/
structure SettleGameAccounts where
  authority_key : Nat
  authority_is_signer : Bool
  casino_state_key : Nat
  game_key : Nat
  game_lamports : Nat
  player_key : Nat
  player_lamports : Nat
  deriving DecidableEq, Repr

/-- Result of a successful `process_settle_game`: the updated game
state and the balances after any payout transfer. -/
structure SettleGameResult where
  game_state : GameState
  game_lamports : Nat
  player_lamports : Nat
  deriving DecidableEq, Repr

/-- `process_settle_game` of lib.rs: signer check, operator-membership
check, already-settled check, player-match check; on a win the payout
bound is computed and enforced and `win_amount` moves from the game
account to the player (the source performs plain u64 `-=` / `+=` there,
modelled as Nat arithmetic); finally the game state is marked settled
with the supplied outcome fields. -/
def process_settle_game (acc : SettleGameAccounts) (casino_state : CasinoState)
    (game_state : GameState) (is_win : Bool) (win_amount result_hash : Nat) :
    Except ProgError SettleGameResult :=
  if !acc.authority_is_signer then
    Except.error (ProgError.custom CasinoError.unauthorized)
  else if !(casino_state.operators.contains acc.authority_key) then
    Except.error (ProgError.custom CasinoError.unauthorized)
  else if game_state.is_settled then
    Except.error (ProgError.custom CasinoError.gameAlreadySettled)
  else if acc.player_key ≠ game_state.player then
    Except.error ProgError.invalidArgument
  else if is_win then
    match max_possible_win game_state.bet_amount casino_state.house_edge with
    | Except.error e => Except.error e
    | Except.ok m =>
      if win_amount > m then
        Except.error (ProgError.custom CasinoError.expectedAmountMismatch)
      else
        Except.ok
          { game_state :=
              { game_state with
                is_settled := true,
                is_win := is_win,
                win_amount := win_amount,
                result_hash := result_hash },
            game_lamports := acc.game_lamports - win_amount,
            player_lamports := acc.player_lamports + win_amount }
  else
    Except.ok
      { game_state :=
          { game_state with
            is_settled := true,
            is_win := is_win,
            win_amount := win_amount,
            result_hash := result_hash },
        game_lamports := acc.game_lamports,
        player_lamports := acc.player_lamports }

/-- The tail of `process_update_params`: apply the optional min and max
bet fields, then re-validate `min_bet <= max_bet` on the resulting
values. -/
def update_bets (cs : CasinoState) (min_bet max_bet : Option Nat) :
    Except ProgError CasinoState :=
  let cs1 : CasinoState := match min_bet with
    | some m => { cs with min_bet := m }
    | none => cs
  let cs2 : CasinoState := match max_bet with
    | some m => { cs1 with max_bet := m }
    | none => cs1
  if cs2.min_bet > cs2.max_bet then
    Except.error (ProgError.custom CasinoError.invalidBetAmount)
  else
    Except.ok cs2

/-- `process_update_params` of lib.rs: signer check, authority check,
per-field validation and application of the house edge, then
`update_bets`. -/
def process_update_params (authority_key : Nat) (authority_is_signer : Bool)
    (casino_state : CasinoState) (house_edge min_bet max_bet : Option Nat) :
    Except ProgError CasinoState :=
  if !authority_is_signer then
    Except.error (ProgError.custom CasinoError.unauthorized)
  else if authority_key ≠ casino_state.authority then
    Except.error (ProgError.custom CasinoError.unauthorized)
  else
    match house_edge with
    | some edge =>
      if edge > 1000 then
        Except.error (ProgError.custom CasinoError.invalidHouseEdge)
      else
        update_bets { casino_state with house_edge := edge } min_bet max_bet
    | none => update_bets casino_state min_bet max_bet

/-- `process_add_operator` of lib.rs: signer check, authority check,
append the operator when absent, otherwise succeed unchanged. -/
def process_add_operator (authority_key : Nat) (authority_is_signer : Bool)
    (operator_key : Nat) (casino_state : CasinoState) :
    Except ProgError CasinoState :=
  if !authority_is_signer then
    Except.error (ProgError.custom CasinoError.unauthorized)
  else if authority_key ≠ casino_state.authority then
    Except.error (ProgError.custom CasinoError.unauthorized)
  else if !(casino_state.operators.contains operator_key) then
    Except.ok { casino_state with operators := casino_state.operators ++ [operator_key] }
  else
    Except.ok casino_state

/-- `process_remove_operator` of lib.rs: signer check, authority check,
refusal to remove the authority itself, then removal of the first
occurrence when present (`position` + `remove`, i.e. `List.erase`),
otherwise succeed unchanged. -/
def process_remove_operator (authority_key : Nat) (authority_is_signer : Bool)
    (operator_key : Nat) (casino_state : CasinoState) :
    Except ProgError CasinoState :=
  if !authority_is_signer then
    Except.error (ProgError.custom CasinoError.unauthorized)
  else if authority_key ≠ casino_state.authority then
    Except.error (ProgError.custom CasinoError.unauthorized)
  else if operator_key = casino_state.authority then
    Except.error (ProgError.custom CasinoError.unauthorized)
  else if casino_state.operators.contains operator_key then
    Except.ok { casino_state with operators := casino_state.operators.erase operator_key }
  else
    Except.ok casino_state

/-- Expected resulting configuration of UpdateParams per the spec: each
present field applied, absent fields unchanged. -/
def updated_state (cs : CasinoState) (house_edge min_bet max_bet : Option Nat) :
    CasinoState :=
  { cs with house_edge := house_edge.getD cs.house_edge,
            min_bet := min_bet.getD cs.min_bet,
            max_bet := max_bet.getD cs.max_bet }

/-- Claim C10: settling an open record with `is_win = false`, by a
signing operator with the matching player account, succeeds for every
supplied `win_amount` (the payout bound is not checked on the loss
path), moves no lamports between the game record and the player, and
stores the supplied `win_amount` in the record rather than forcing it
to zero. -/
theorem settle_loss_no_transfer
    (acc : SettleGameAccounts) (cs : CasinoState) (gs : GameState) (win rh : Nat)
    (hs : acc.authority_is_signer = true)
    (hop : cs.operators.contains acc.authority_key = true)
    (hns : gs.is_settled = false)
    (hpl : acc.player_key = gs.player) :
    process_settle_game acc cs gs false win rh =
      Except.ok ⟨{ gs with is_settled := true, is_win := false, win_amount := win, result_hash := rh },
                 acc.game_lamports, acc.player_lamports⟩ := by
  have hmem : acc.authority_key ∈ cs.operators := by simpa using hop
  simp [process_settle_game, hs, hmem, hns, hpl]

/-- Witness for `settle_loss_no_transfer` at a concrete input. -/
theorem settle_loss_no_transfer_witness :
    process_settle_game ⟨1, true, 3, 16, 600000, 2, 1000⟩ ⟨1, 250, 100000, 1000000000, [1]⟩
      ⟨2, 500000, false, false, 0, 0⟩ false 777 9 =
    Except.ok ⟨⟨2, 500000, true, false, 777, 9⟩, 600000, 1000⟩ :=
  settle_loss_no_transfer ⟨1, true, 3, 16, 600000, 2, 1000⟩ ⟨1, 250, 100000, 1000000000, [1]⟩
    ⟨2, 500000, false, false, 0, 0⟩ 777 9 rfl rfl rfl rfl

/-- Claim C7: Initialize with a signing authority and the matching
derived casino address succeeds with the given parameters and
`operators = [authority]` when `house_edge ≤ 1000` and
`min_bet ≤ max_bet`; fails with `InvalidHouseEdge` when
`house_edge > 1000`; fails with `InvalidBetAmount` when the house edge
is in range and `min_bet > max_bet` (the house-edge check runs first in
the source, so the `InvalidBetAmount` case is stated for an in-range
house edge). -/
theorem initialize_spec
    (acc : InitializeAccounts) (e mn mx : Nat)
    (hs : acc.authority_is_signer = true)
    (haddr : acc.casino_state_key = derive (Seed.casino acc.authority_key)) :
    (e ≤ 1000 → mn ≤ mx →
      process_init acc e mn mx =
        Except.ok ⟨acc.authority_key, e, mn, mx, [acc.authority_key]⟩)
    ∧ (1000 < e →
      process_init acc e mn mx =
        Except.error (ProgError.custom CasinoError.invalidHouseEdge))
    ∧ (e ≤ 1000 → mx < mn →
      process_init acc e mn mx =
        Except.error (ProgError.custom CasinoError.invalidBetAmount)) := by
  refine ⟨?_, ?_, ?_⟩
  · intro h1 h2
    have hne : ¬ (e > 1000) := by omega
    have hnb : ¬ (mn > mx) := by omega
    simp [process_init, hs, haddr, hne, hnb]
  · intro h1
    simp [process_init, hs, h1]
  · intro h1 h2
    have hne : ¬ (e > 1000) := by omega
    have hb : mn > mx := by omega
    simp [process_init, hs, hne, hb]

/-- Witness for `initialize_spec` at the concrete spec example
(`bps = 250`, `min = 100000`, `max = 1000000000`): success, plus the
two failure cases at `bps = 1001` and inverted bounds. -/
theorem initialize_spec_witness :
    process_init ⟨1, true, 3⟩ 250 100000 1000000000 =
      Except.ok ⟨1, 250, 100000, 1000000000, [1]⟩
    ∧ process_init ⟨1, true, 3⟩ 1001 100000 1000000000 =
      Except.error (ProgError.custom CasinoError.invalidHouseEdge)
    ∧ process_init ⟨1, true, 3⟩ 250 5 4 =
      Except.error (ProgError.custom CasinoError.invalidBetAmount) :=
  ⟨(initialize_spec ⟨1, true, 3⟩ 250 100000 1000000000 rfl (by decide)).1 (by decide) (by decide),
   (initialize_spec ⟨1, true, 3⟩ 1001 100000 1000000000 rfl (by decide)).2.1 (by decide),
   (initialize_spec ⟨1, true, 3⟩ 250 5 4 rfl (by decide)).2.2 (by decide) (by decide)⟩

/-- Claim C5 (code bug): the multiplication is overflow-checked and
signals `ArithmeticOverflow` (first two conjuncts), and a zero
denominator (`house_edge = 10000`) also fails with
`ArithmeticOverflow`; but for `house_edge > 10000` (a negative
denominator in exact arithmetic) the source `unwrap_or(1)` silently
replaces the denominator by 1, so the computation succeeds with the
inflated bound `bet * 10000` instead of failing: at `bet = 5`,
`house_edge = 10001` it returns `ok 50000`. -/
theorem max_possible_win_fallback :
    max_possible_win (2 ^ 62) 250 = Except.error ProgError.arithmeticOverflow
    ∧ max_possible_win 5 10000 = Except.error ProgError.arithmeticOverflow
    ∧ max_possible_win 5 10001 = Except.ok 50000
    ∧ (∀ e : ProgError, max_possible_win 5 10001 ≠ Except.error e) := by
  refine ⟨by decide, by decide, by decide, ?_⟩
  intro e h
  rw [show max_possible_win 5 10001 = Except.ok 50000 from by decide] at h
  exact Except.noConfusion h

/-- Claim C4 counterexample: with `min_bet` configured to 0, a zero
`bet_amount` passes the range check and PlaceBet succeeds (escrowing
nothing), instead of failing with `InvalidBetAmount`: there is no
explicit zero-amount check in the source. -/
theorem place_bet_zero_accepted :
    derive (Seed.game 1) = 4
    ∧ process_place_bet ⟨2, true, 10, 99, 4, 0⟩ ⟨1, 250, 0, 100, [1]⟩ 1 0 =
        Except.ok ⟨⟨2, 0, false, false, 0, 0⟩, 10, 0⟩ := by decide

/-- Claim C4 (amended): with a signing player, PlaceBet fails with
`InvalidBetAmount` whenever `bet_amount < min_bet` or
`bet_amount > max_bet` (which rejects zero exactly when
`min_bet > 0`; there is no separate zero check), and whenever the bet
is in range but the player balance is below `bet_amount` it fails with
`InsufficientFunds`; in the embedding an error result carries no state,
so no value is transferred. -/
theorem place_bet_validation
    (acc : PlaceBetAccounts) (cs : CasinoState) (gid amt : Nat)
    (hs : acc.player_is_signer = true) :
    ((amt < cs.min_bet ∨ cs.max_bet < amt) →
      process_place_bet acc cs gid amt =
        Except.error (ProgError.custom CasinoError.invalidBetAmount))
    ∧ (cs.min_bet ≤ amt → amt ≤ cs.max_bet → acc.player_lamports < amt →
      process_place_bet acc cs gid amt =
        Except.error (ProgError.custom CasinoError.insufficientFunds)) := by
  constructor
  · intro h
    have hc : (amt < cs.min_bet || amt > cs.max_bet) = true := by
      rcases h with h | h <;> simp [h]
    simp [process_place_bet, hs, hc]
  · intro h1 h2 h3
    have hc : (amt < cs.min_bet || amt > cs.max_bet) = false := by
      simp only [Bool.or_eq_false_iff, decide_eq_false_iff_not]
      omega
    simp [process_place_bet, hs, hc, h3]

/-- Witness for `place_bet_validation`: an under-minimum bet fails with
`InvalidBetAmount`, and an in-range bet with a poor player fails with
`InsufficientFunds`. -/
theorem place_bet_validation_witness :
    process_place_bet ⟨2, true, 10, 99, 4, 0⟩ ⟨1, 250, 100, 1000, [1]⟩ 1 50 =
      Except.error (ProgError.custom CasinoError.invalidBetAmount)
    ∧ process_place_bet ⟨2, true, 10, 99, 4, 0⟩ ⟨1, 250, 100, 1000, [1]⟩ 1 200 =
      Except.error (ProgError.custom CasinoError.insufficientFunds) :=
  ⟨(place_bet_validation ⟨2, true, 10, 99, 4, 0⟩ ⟨1, 250, 100, 1000, [1]⟩ 1 50 rfl).1
      (Or.inl (by decide)),
   (place_bet_validation ⟨2, true, 10, 99, 4, 0⟩ ⟨1, 250, 100, 1000, [1]⟩ 1 200 rfl).2
      (by decide) (by decide) (by decide)⟩

/-- Claim C3 counterexample: `process_settle_game` performs no address
re-derivation at all.  Concretely, for a game record created from
`game_id = 7` (whose derived address is 16) and an authority 1 (whose
derived casino address is 3), a settlement supplying game address 98
and casino address 99 succeeds instead of failing with an address
mismatch. -/
theorem settle_game_no_address_check :
    derive (Seed.game 7) = 16
    ∧ derive (Seed.casino 1) = 3
    ∧ (98 : Nat) ≠ 16
    ∧ (99 : Nat) ≠ 3
    ∧ process_settle_game ⟨1, true, 99, 98, 600000, 2, 50⟩ ⟨1, 250, 100000, 1000000000, [1]⟩
        ⟨2, 500000, false, false, 0, 0⟩ false 0 0 =
      Except.ok ⟨⟨2, 500000, true, false, 0, 0⟩, 600000, 50⟩ := by decide

/-- Claim C3 (amended): Initialize and PlaceBet re-derive the expected
address (from `("casino", authority)` and from `game_id` respectively)
and reject a non-matching supplied address with the host
`InvalidArgument` error (the error the spec calls `AddressMismatch`);
SettleGame performs no such re-derivation (see the counterexample). -/
theorem address_check_initialize_place_bet :
    (∀ (acc : InitializeAccounts) (e mn mx : Nat),
      acc.authority_is_signer = true → e ≤ 1000 → mn ≤ mx →
      acc.casino_state_key ≠ derive (Seed.casino acc.authority_key) →
      process_init acc e mn mx = Except.error ProgError.invalidArgument)
    ∧ (∀ (acc : PlaceBetAccounts) (cs : CasinoState) (gid amt : Nat),
      acc.player_is_signer = true → cs.min_bet ≤ amt → amt ≤ cs.max_bet →
      amt ≤ acc.player_lamports →
      acc.game_account_key ≠ derive (Seed.game gid) →
      process_place_bet acc cs gid amt = Except.error ProgError.invalidArgument) := by
  constructor
  · intro acc e mn mx hs h1 h2 haddr
    have hne : ¬ (e > 1000) := by omega
    have hnb : ¬ (mn > mx) := by omega
    have hd : derive (Seed.casino acc.authority_key) ≠ acc.casino_state_key :=
      fun h => haddr h.symm
    simp [process_init, hs, hne, hnb, hd]
  · intro acc cs gid amt hs h1 h2 h3 haddr
    have hc : (amt < cs.min_bet || amt > cs.max_bet) = false := by
      simp only [Bool.or_eq_false_iff, decide_eq_false_iff_not]
      omega
    have hf : ¬ (acc.player_lamports < amt) := by omega
    have hd : derive (Seed.game gid) ≠ acc.game_account_key :=
      fun h => haddr h.symm
    simp [process_place_bet, hs, hc, hf, hd]

/-- Witness for `address_check_initialize_place_bet` at concrete
mismatched addresses. -/
theorem address_check_witness :
    process_init ⟨1, true, 500⟩ 250 100000 1000000000 =
      Except.error ProgError.invalidArgument
    ∧ process_place_bet ⟨2, true, 1000000, 99, 500, 0⟩ ⟨1, 250, 100000, 1000000000, [1]⟩ 7 500000 =
      Except.error ProgError.invalidArgument :=
  ⟨address_check_initialize_place_bet.1 ⟨1, true, 500⟩ 250 100000 1000000000 rfl (by decide)
      (by decide) (by decide),
   address_check_initialize_place_bet.2 ⟨2, true, 1000000, 99, 500, 0⟩
      ⟨1, 250, 100000, 1000000000, [1]⟩ 7 500000 rfl (by decide) (by decide) (by decide)
      (by decide)⟩

/-- Claim C1: settling an open record by a signing operator with the
matching player and `is_win = true` succeeds and moves exactly
`win_amount` lamports from the game record to the player when
`win_amount ≤ bet_amount * 10000 / (10000 - house_edge)` (truncating
division), and fails with `ExpectedAmountMismatch` when `win_amount`
exceeds that bound.  Side conditions of the machine arithmetic are
hypotheses: the configured house edge respects its invariant
`≤ 1000` (so the checked subtraction and division succeed),
`bet_amount * 10000` fits in u64 (so the checked multiplication
succeeds), and the game account holds at least `win_amount` (so the
u64 balance subtraction is exact). -/
theorem settle_win_payout_bound
    (acc : SettleGameAccounts) (cs : CasinoState) (gs : GameState) (win rh : Nat)
    (hs : acc.authority_is_signer = true)
    (hop : cs.operators.contains acc.authority_key = true)
    (hns : gs.is_settled = false)
    (hpl : acc.player_key = gs.player)
    (hedge : cs.house_edge ≤ 1000)
    (hmul : gs.bet_amount * 10000 < 2 ^ 64)
    (hbal : win ≤ acc.game_lamports) :
    (win ≤ gs.bet_amount * 10000 / (10000 - cs.house_edge) →
      process_settle_game acc cs gs true win rh =
        Except.ok ⟨{ gs with is_settled := true, is_win := true, win_amount := win, result_hash := rh },
                   acc.game_lamports - win, acc.player_lamports + win⟩
      ∧ acc.game_lamports - win + win = acc.game_lamports)
    ∧ (gs.bet_amount * 10000 / (10000 - cs.house_edge) < win →
      process_settle_game acc cs gs true win rh =
        Except.error (ProgError.custom CasinoError.expectedAmountMismatch)) := by
  have hmem : acc.authority_key ∈ cs.operators := by simpa using hop
  have hm : max_possible_win gs.bet_amount cs.house_edge =
      Except.ok (gs.bet_amount * 10000 / (10000 - cs.house_edge)) := by
    have h2 : cs.house_edge ≤ 10000 := by omega
    have h3 : ¬ (10000 - cs.house_edge = 0) := by omega
    unfold max_possible_win checked_mul checked_sub checked_div
    rw [if_pos hmul, if_pos h2]
    simp [h3]
  constructor
  · intro hle
    have hgt : ¬ (win > gs.bet_amount * 10000 / (10000 - cs.house_edge)) := by omega
    refine ⟨?_, Nat.sub_add_cancel hbal⟩
    simp [process_settle_game, hs, hmem, hns, hpl, hm, hgt]
  · intro hlt
    simp [process_settle_game, hs, hmem, hns, hpl, hm, hlt]

/-- Witness for `settle_win_payout_bound` at the spec example:
`bps = 250`, bet `500000`, bound `512820`; settling `512820` succeeds
with the exact transfer, `512821` fails with
`ExpectedAmountMismatch`. -/
theorem settle_win_payout_bound_witness :
    process_settle_game ⟨1, true, 3, 16, 600000, 2, 1000⟩ ⟨1, 250, 100000, 1000000000, [1]⟩
      ⟨2, 500000, false, false, 0, 0⟩ true 512820 0 =
      Except.ok ⟨⟨2, 500000, true, true, 512820, 0⟩, 600000 - 512820, 1000 + 512820⟩
    ∧ process_settle_game ⟨1, true, 3, 16, 600000, 2, 1000⟩ ⟨1, 250, 100000, 1000000000, [1]⟩
      ⟨2, 500000, false, false, 0, 0⟩ true 512821 0 =
      Except.error (ProgError.custom CasinoError.expectedAmountMismatch) :=
  ⟨((settle_win_payout_bound ⟨1, true, 3, 16, 600000, 2, 1000⟩ ⟨1, 250, 100000, 1000000000, [1]⟩
      ⟨2, 500000, false, false, 0, 0⟩ 512820 0 rfl rfl rfl rfl (by decide) (by decide)
      (by decide)).1 (by decide)).1,
   (settle_win_payout_bound ⟨1, true, 3, 16, 600000, 2, 1000⟩ ⟨1, 250, 100000, 1000000000, [1]⟩
      ⟨2, 500000, false, false, 0, 0⟩ 512821 0 rfl rfl rfl rfl (by decide) (by decide)
      (by decide)).2 (by decide)⟩

/-- Claim C2: `is_settled` is monotonic and guards settlement.  On a
record with `is_settled = true`, `process_settle_game` never succeeds
(so, the host applying no writes on error, the record is unchanged),
and for a signing operator it fails precisely with
`GameAlreadySettled`, for every choice of `is_win`, `win_amount` and
`result_hash`; moreover every successful settlement leaves
`is_settled = true`, and settlement is the only instruction that
writes an existing game record (PlaceBet only creates records, with
the host rejecting an occupied address), so the flag is never reset. -/
theorem settle_already_settled_monotonic
    (acc : SettleGameAccounts) (cs : CasinoState) (gs : GameState)
    (w : Bool) (win rh : Nat) :
    (gs.is_settled = true →
      (∀ r, process_settle_game acc cs gs w win rh ≠ Except.ok r)
      ∧ (acc.authority_is_signer = true →
        cs.operators.contains acc.authority_key = true →
        process_settle_game acc cs gs w win rh =
          Except.error (ProgError.custom CasinoError.gameAlreadySettled)))
    ∧ (∀ r, process_settle_game acc cs gs w win rh = Except.ok r →
        r.game_state.is_settled = true) := by
  constructor
  · intro hset
    constructor
    · intro r hr
      cases hsig : acc.authority_is_signer with
      | false => simp [process_settle_game, hsig] at hr
      | true =>
        by_cases hmem : acc.authority_key ∈ cs.operators
        · simp [process_settle_game, hsig, hmem, hset] at hr
        · simp [process_settle_game, hsig, hmem] at hr
    · intro hsig hopc
      have hmem : acc.authority_key ∈ cs.operators := by simpa using hopc
      simp [process_settle_game, hsig, hmem, hset]
  · intro r hr
    unfold process_settle_game at hr
    repeat' split at hr
    all_goals first
      | (injection hr with h; subst h; rfl)
      | exact absurd hr (by simp)

/-- Witness for `settle_already_settled_monotonic`: a second
settlement of an already-settled concrete record fails with
`GameAlreadySettled`. -/
theorem settle_already_settled_witness :
    process_settle_game ⟨1, true, 3, 16, 87180, 2, 513820⟩ ⟨1, 250, 100000, 1000000000, [1]⟩
      ⟨2, 500000, true, true, 512820, 0⟩ true 512820 0 =
      Except.error (ProgError.custom CasinoError.gameAlreadySettled) :=
  ((settle_already_settled_monotonic ⟨1, true, 3, 16, 87180, 2, 513820⟩
      ⟨1, 250, 100000, 1000000000, [1]⟩ ⟨2, 500000, true, true, 512820, 0⟩
      true 512820 0).1 rfl).2 rfl rfl

/-- For an authorized call whose present house edge is within the cap,
UpdateParams reduces to the final bounds check on the resulting
values. -/
lemma update_params_eq (ak : Nat) (cs : CasinoState) (he mnb mxb : Option Nat)
    (hak : ak = cs.authority) (hsub : ∀ e, he = some e → e ≤ 1000) :
    process_update_params ak true cs he mnb mxb =
      if (updated_state cs he mnb mxb).max_bet < (updated_state cs he mnb mxb).min_bet
      then Except.error (ProgError.custom CasinoError.invalidBetAmount)
      else Except.ok (updated_state cs he mnb mxb) := by
  rcases he with _ | e
  · rcases mnb with _ | m <;> rcases mxb with _ | M <;>
      simp [process_update_params, update_bets, updated_state, hak]
  · have he1 : e ≤ 1000 := hsub e rfl
    have hne : ¬ (e > 1000) := by omega
    rcases mnb with _ | m <;> rcases mxb with _ | M <;>
      simp [process_update_params, update_bets, updated_state, hak, hne]

/-- Claim C8: UpdateParams signed by the authority validates and
applies each present field independently (a present house edge above
1000 fails with `InvalidHouseEdge`), re-validates
`min_bet ≤ max_bet` on the values resulting after all present fields
are applied (failing with `InvalidBetAmount` otherwise, so raising
`max_bet` while lowering `min_bet` in one call is allowed), and a call
with all three fields absent succeeds and leaves the record unchanged
(the record satisfying its `min_bet ≤ max_bet` invariant). -/
theorem update_params_spec
    (ak : Nat) (cs : CasinoState) (he mnb mxb : Option Nat)
    (hak : ak = cs.authority)
    (hinv : cs.min_bet ≤ cs.max_bet) :
    (∀ e, he = some e → 1000 < e →
      process_update_params ak true cs he mnb mxb =
        Except.error (ProgError.custom CasinoError.invalidHouseEdge))
    ∧ ((∀ e, he = some e → e ≤ 1000) →
      ((updated_state cs he mnb mxb).min_bet ≤ (updated_state cs he mnb mxb).max_bet →
        process_update_params ak true cs he mnb mxb =
          Except.ok (updated_state cs he mnb mxb))
      ∧ ((updated_state cs he mnb mxb).max_bet < (updated_state cs he mnb mxb).min_bet →
        process_update_params ak true cs he mnb mxb =
          Except.error (ProgError.custom CasinoError.invalidBetAmount)))
    ∧ (he = none → mnb = none → mxb = none →
      process_update_params ak true cs he mnb mxb = Except.ok cs) := by
  refine ⟨?_, ?_, ?_⟩
  · intro e hee hgt
    subst hee
    simp [process_update_params, hak, hgt]
  · intro hsub
    constructor
    · intro hle
      rw [update_params_eq ak cs he mnb mxb hak hsub, if_neg (by omega)]
    · intro hlt
      rw [update_params_eq ak cs he mnb mxb hak hsub, if_pos hlt]
  · intro h1 h2 h3
    subst h1; subst h2; subst h3
    rw [update_params_eq ak cs none none none hak (by intro e h; exact absurd h (by simp))]
    rw [if_neg (by simp [updated_state]; omega)]
    rfl

/-- Witness for `update_params_spec`: simultaneously raising `max_bet`
and lowering `min_bet` succeeds, an over-cap house edge fails, and an
all-absent call changes nothing. -/
theorem update_params_spec_witness :
    process_update_params 1 true ⟨1, 250, 500, 600, [1]⟩ (some 100) (some 10) (some 5000) =
      Except.ok ⟨1, 100, 10, 5000, [1]⟩
    ∧ process_update_params 1 true ⟨1, 250, 500, 600, [1]⟩ (some 1001) none none =
      Except.error (ProgError.custom CasinoError.invalidHouseEdge)
    ∧ process_update_params 1 true ⟨1, 250, 500, 600, [1]⟩ none none none =
      Except.ok ⟨1, 250, 500, 600, [1]⟩ :=
  ⟨((update_params_spec 1 ⟨1, 250, 500, 600, [1]⟩ (some 100) (some 10) (some 5000) rfl
      (by decide)).2.1 (by intro e h; cases h; decide)).1 (by decide),
   (update_params_spec 1 ⟨1, 250, 500, 600, [1]⟩ (some 1001) none none rfl (by decide)).1
      1001 rfl (by decide),
   (update_params_spec 1 ⟨1, 250, 500, 600, [1]⟩ none none none rfl (by decide)).2.2
      rfl rfl rfl⟩

/-- Claim C6: the authority is always a member of the operator set.
Initialize creates the record with `operators = [authority]`;
RemoveOperator targeting the authority fails with `Unauthorized`
unconditionally (every path of that handler returns `Unauthorized`
in that case); and each configuration-mutating handler preserves
`authority ∈ operators` on success (UpdateParams does not touch the
set, AddOperator only appends, RemoveOperator refuses the authority
and removes only other keys).  PlaceBet and SettleGame never write the
configuration record. -/
theorem authority_always_operator
    (acc : InitializeAccounts) (e mn mx ak opk : Nat) (s : Bool)
    (cs : CasinoState) (he mnb mxb : Option Nat) :
    (∀ cs1, process_init acc e mn mx = Except.ok cs1 →
      cs1.operators = [cs1.authority])
    ∧ process_remove_operator ak s cs.authority cs =
        Except.error (ProgError.custom CasinoError.unauthorized)
    ∧ (cs.authority ∈ cs.operators →
      (∀ cs1, process_update_params ak s cs he mnb mxb = Except.ok cs1 →
        cs1.authority ∈ cs1.operators)
      ∧ (∀ cs1, process_add_operator ak s opk cs = Except.ok cs1 →
        cs1.authority ∈ cs1.operators)
      ∧ (∀ cs1, process_remove_operator ak s opk cs = Except.ok cs1 →
        cs1.authority ∈ cs1.operators)) := by
  refine ⟨?_, ?_, ?_⟩
  · intro cs1 hr
    unfold process_init at hr
    repeat' split at hr
    all_goals first
      | (injection hr with h; subst h; rfl)
      | exact absurd hr (by simp)
  · unfold process_remove_operator
    cases s with
    | false => simp
    | true =>
      by_cases hak : ak = cs.authority
      · simp [hak]
      · simp [hak]
  · intro hmem
    refine ⟨?_, ?_, ?_⟩
    · intro cs1 hr
      unfold process_update_params update_bets at hr
      dsimp only at hr
      repeat' split at hr
      all_goals first
        | (injection hr with h; subst h; exact hmem)
        | exact absurd hr (by simp)
    · intro cs1 hr
      unfold process_add_operator at hr
      repeat' split at hr
      all_goals first
        | (injection hr with h; subst h; exact hmem)
        | (injection hr with h; subst h;
           exact List.mem_append_left _ hmem)
        | exact absurd hr (by simp)
    · intro cs1 hr
      unfold process_remove_operator at hr
      by_cases c1 : (!s) = true
      · rw [if_pos c1] at hr
        exact absurd hr (by simp)
      · rw [if_neg c1] at hr
        by_cases c2 : ak ≠ cs.authority
        · rw [if_pos c2] at hr
          exact absurd hr (by simp)
        · rw [if_neg c2] at hr
          by_cases c3 : opk = cs.authority
          · rw [if_pos c3] at hr
            exact absurd hr (by simp)
          · rw [if_neg c3] at hr
            by_cases c4 : cs.operators.contains opk = true
            · rw [if_pos c4] at hr
              injection hr with h
              subst h
              exact (List.mem_erase_of_ne (fun hh => c3 hh.symm)).mpr hmem
            · rw [if_neg c4] at hr
              injection hr with h
              subst h
              exact hmem

/-- Witness for `authority_always_operator`: removing the authority
from a concrete record fails, and the authority stays a member after a
concrete AddOperator. -/
theorem authority_always_operator_witness :
    process_remove_operator 9 true 1 ⟨1, 250, 100, 1000, [1, 5]⟩ =
      Except.error (ProgError.custom CasinoError.unauthorized)
    ∧ (1 : Nat) ∈
      ({ authority := 1, house_edge := 250, min_bet := 100, max_bet := 1000,
         operators := [1, 5, 7] } : CasinoState).operators :=
  ⟨(authority_always_operator ⟨1, true, 3⟩ 250 100 1000 9 1 true ⟨1, 250, 100, 1000, [1, 5]⟩
      none none none).2.1,
   ((authority_always_operator ⟨1, true, 3⟩ 250 100 1000 1 7 true ⟨1, 250, 100, 1000, [1, 5]⟩
      none none none).2.2 (by decide)).2.1 ⟨1, 250, 100, 1000, [1, 5, 7]⟩ (by decide)⟩

/-- Claim C9: AddOperator signed by the authority is idempotent — the
first call succeeds, and a second call on its result succeeds and
returns it unchanged; RemoveOperator on a non-member distinct from the
authority succeeds as a no-op. -/
theorem add_operator_idempotent_remove_noop
    (ak opk : Nat) (cs : CasinoState)
    (hak : ak = cs.authority) :
    (∃ cs1, process_add_operator ak true opk cs = Except.ok cs1)
    ∧ (∀ cs1, process_add_operator ak true opk cs = Except.ok cs1 →
      process_add_operator ak true opk cs1 = Except.ok cs1)
    ∧ (cs.operators.contains opk = false → opk ≠ cs.authority →
      process_remove_operator ak true opk cs = Except.ok cs) := by
  refine ⟨?_, ?_, ?_⟩
  · by_cases hcont : opk ∈ cs.operators
    · exact ⟨cs, by simp [process_add_operator, hak, hcont]⟩
    · exact ⟨{ cs with operators := cs.operators ++ [opk] },
        by simp [process_add_operator, hak, hcont]⟩
  · intro cs1 hr
    by_cases hcont : opk ∈ cs.operators
    · have h1 : process_add_operator ak true opk cs = Except.ok cs := by
        simp [process_add_operator, hak, hcont]
      rw [h1] at hr
      injection hr with h
      subst h
      exact h1
    · have h1 : process_add_operator ak true opk cs =
          Except.ok { cs with operators := cs.operators ++ [opk] } := by
        simp [process_add_operator, hak, hcont]
      rw [h1] at hr
      injection hr with h
      subst h
      simp [process_add_operator, hak, List.mem_append]
  · intro hcont hne
    have hmem : opk ∉ cs.operators := by simpa using hcont
    simp [process_remove_operator, hak, hne, hmem]

/-- Witness for `add_operator_idempotent_remove_noop`: adding operator
5 twice to a concrete record returns the result of the first add, and
removing the non-member 7 is a no-op. -/
theorem add_operator_idempotent_witness :
    process_add_operator 1 true 5 ⟨1, 250, 100, 1000, [1, 5]⟩ =
      Except.ok ⟨1, 250, 100, 1000, [1, 5]⟩
    ∧ process_remove_operator 1 true 7 ⟨1, 250, 100, 1000, [1, 5]⟩ =
      Except.ok ⟨1, 250, 100, 1000, [1, 5]⟩ :=
  ⟨(add_operator_idempotent_remove_noop 1 5 ⟨1, 250, 100, 1000, [1]⟩ rfl).2.1
      ⟨1, 250, 100, 1000, [1, 5]⟩ (by decide),
   (add_operator_idempotent_remove_noop 1 7 ⟨1, 250, 100, 1000, [1, 5]⟩ rfl).2.2
      (by decide) (by decide)⟩
